import Mathlib

set_option autoImplicit false

/-!
Shallow embedding of `src/io.rs` (the effect boundary of the uiua runtime):
the operation registry (`io_op!` table), the `IoBackend` capability trait with
its default methods, the dispatcher `IoOp::run`, and the media codec
(`value_to_image`, `value_to_image_bytes`, `value_to_wav_bytes`).

Modelling conventions:
* `f64` is modelled by `ℚ` (the claims under study are structural; the only
  numeric fact used, `(f * 255.0).floor() as u8`, is exact on the rationals
  exercised here, and Rust's float→int `as` cast saturates, which we model
  by clamping; `ℚ` has no NaN, and no claim exercises NaN).
* Machine integer casts that matter are explicit: `as u32` is `% 4294967296`,
  `as u16` is `% 65536`.
* Fallible Rust code returns `Except String _`; a Rust panic (an `unreachable!`
  branch, a `chunks_exact(0)` call, an out-of-bounds index) is modelled by
  `Option.none` wrapped around the result.
* The evaluator (`Uiua`: stack, `pop`, `push`, `error`, `import`), the array
  type (`Value`: rank, shape, flat buffer) and the third-party codecs
  (`image`, `hound`) live outside `src/`; they are modelled from the spec
  where noted.
-/

/-- Modelled from the spec: a masked byte is "either a concrete small integer
or an unset sentinel normalizing to 0" (the crate's `Byte` type, external to
`src/io.rs`). -/
inductive MByte where
  | val (n : Nat)
  | unset
deriving DecidableEq

/-- The crate's `Byte::or(0)`: the unset sentinel normalizes to 0. -/
def MByte.or0 : MByte → Nat
  | .val n => n
  | .unset => 0

/-- Modelled from the spec: the runtime's generic array value, "tagged union
over at least `Numeric(Array<f64>)` and `Masked(Array<MaskedBool>)`"; a
character variant carries textual values (strings are rank-1 char arrays).
Each variant has a shape and a flat row-major buffer. Variants other than
`num`/`byte` all land in the codec's `_ =>` (non-numeric) arms, so one such
variant suffices. -/
inductive Value where
  | num (shape : List Nat) (data : List ℚ)
  | byte (shape : List Nat) (data : List MByte)
  | char (shape : List Nat) (data : List Char)
deriving DecidableEq

/-- Modelled from the spec: a value's shape, an ordered sequence of dimension
sizes. -/
def Value.shape : Value → List Nat
  | .num s _ => s
  | .byte s _ => s
  | .char s _ => s

/-- Modelled from the spec: rank = shape length. -/
def Value.rank (v : Value) : Nat := v.shape.length

/-- Modelled from the spec: for a rank-2 audio value shaped
`[channel_count, sample_count]` the row length is `sample_count`; in general
the product of all dimensions after the first. -/
def Value.rowLen (v : Value) : Nat := (v.shape.drop 1).prod

/-- A rank-1 character array holding a string (how the runtime represents
textual values). -/
def strValue (s : String) : Value := .char [s.data.length] s.data

/-- Modelled from the spec: a "sequence of character sequences" pushed by
`args`, `flines` and `flistdir`; only the fact that a single value is pushed
matters to the dispatcher contract, so the packing is kept simple. -/
def strListValue (ss : List String) : Value :=
  .char [ss.length] (ss.map String.data).flatten

/-- A scalar boolean pushed by `fexists` / `fisfile`. -/
def boolValue (b : Bool) : Value := .byte [] [.val (cond b 1 0)]

/-- `2 ^ 32`, the modulus of a Rust `as u32` cast. -/
def u32Mod : Nat := 4294967296

/-- The pixel layouts of the `image` crate's typed buffers used by
`value_to_image` (`GrayImage`, `GrayAlphaImage`, `RgbImage`, `RgbaImage`). -/
inductive ColorKind where
  | gray
  | grayAlpha
  | rgb
  | rgba
deriving DecidableEq

/-- Channel count of a pixel layout. -/
def ColorKind.channels : ColorKind → Nat
  | .gray => 1
  | .grayAlpha => 2
  | .rgb => 3
  | .rgba => 4

/-- An in-memory image (the model of the `image` crate's `DynamicImage`):
pixel layout, `u32` dimensions, and the raw byte buffer. -/
structure Image where
  width : Nat
  height : Nat
  color : ColorKind
  data : List Nat
deriving DecidableEq

/-- Channel count of an image, determined by its layout. -/
def Image.channels (img : Image) : Nat := img.color.channels

/-- `ImageBuffer::from_raw(width, height, buf)` of the `image` crate: `none`
when the buffer is not big enough for `width * height * channels` samples. -/
def fromRaw (color : ColorKind) (width height : Nat) (bytes : List Nat) :
    Option Image :=
  if width * height * color.channels ≤ bytes.length then
    some ⟨width, height, color, bytes⟩
  else
    none

/-- `(*f * 255.0).floor() as u8` from `value_to_image`'s `Num` arm. Rust's
float→integer `as` cast saturates at the target type's bounds (and maps NaN
to 0), so the floor is clamped into `[0, 255]`, not wrapped. -/
def numToByte (f : ℚ) : Nat := (min 255 (max 0 ⌊f * 255⌋)).toNat

/-- `|&b| b.or(0).min(1) * 255` from `value_to_image`'s `Byte` arm. -/
def mbyteToByte (b : MByte) : Nat := min b.or0 1 * 255

/-- The error text of `value_to_image`'s rank check. -/
def imgRankMsg : String := "Image must be a rank 2 or 3 numeric array"

/-- The error text of `value_to_image`'s channel-count check, naming the
offending count. -/
def chanMsg (n : Nat) : String :=
  "For a color image, the last dimension of the image array must be between 1 and 4 but it is "
    ++ toString n

/-- The `match px_size` at the end of `value_to_image`: pick the typed image
constructor for 1–4 channels (each `from_raw` failure becomes
"Failed to create image"), any other count is the descriptive channel error.
The `as u32` casts of `width`/`height` happen at the `from_raw` call sites. -/
def imageOfChannels (height width px : Nat) (bytes : List Nat) :
    Except String Image :=
  if px = 1 then
    match fromRaw .gray (width % u32Mod) (height % u32Mod) bytes with
    | some img => .ok img
    | none => .error "Failed to create image"
  else if px = 2 then
    match fromRaw .grayAlpha (width % u32Mod) (height % u32Mod) bytes with
    | some img => .ok img
    | none => .error "Failed to create image"
  else if px = 3 then
    match fromRaw .rgb (width % u32Mod) (height % u32Mod) bytes with
    | some img => .ok img
    | none => .error "Failed to create image"
  else if px = 4 then
    match fromRaw .rgba (width % u32Mod) (height % u32Mod) bytes with
    | some img => .ok img
    | none => .error "Failed to create image"
  else
    .error (chanMsg px)

/-- `value_to_image` from `src/io.rs`: rank check, element conversion,
shape destructuring (`&[a, b]` is a 1-channel image, `&[a, b, c]` a
`c`-channel one; the remaining arm is `unreachable!`, modelled by `none`),
then the channel dispatch. -/
def value_to_image (value : Value) : Option (Except String Image) :=
  if ¬(value.rank = 2 ∨ value.rank = 3) then
    some (.error imgRankMsg)
  else
    match (match value with
      | .num _ d => Except.ok (d.map numToByte)
      | .byte _ d => Except.ok (d.map mbyteToByte)
      | _ => Except.error "Image must be a numeric array" :
        Except String (List Nat)) with
    | .error e => some (.error e)
    | .ok bytes =>
      match value.shape with
      | [a, b] => some (imageOfChannels a b 1 bytes)
      | [a, b, c] => some (imageOfChannels a b c bytes)
      | _ => none

/-- `value_to_image_bytes` composes `value_to_image` with the `image` crate's
`write_to` serializer; serialization itself is an external collaborator, so it
is passed in as a function (the dispatcher supplies it from `Externals`), and
its failure is wrapped as "Failed to write image: {e}". -/
def value_to_image_bytes (writeTo : Image → Except String (List Nat))
    (value : Value) : Option (Except String (List Nat)) :=
  match value_to_image value with
  | none => none
  | some (.error e) => some (.error e)
  | some (.ok img) =>
    match writeTo img with
    | .error e => some (.error ("Failed to write image: " ++ e))
    | .ok bts => some (.ok bts)

/-- The `hound` sample formats used by the audio codec. -/
inductive SampleFormat where
  | float
  | int
deriving DecidableEq

/-- `hound::WavSpec`: channel count (a `u16`), sample rate, bit depth and
sample format. -/
structure WavSpec where
  channels : Nat
  sample_rate : Nat
  bits_per_sample : Nat
  sample_format : SampleFormat
deriving DecidableEq

/-- The WAV container produced by `value_to_wav_bytes`: its spec and the
ordered stream of samples handed to `WavWriter::write_sample` (the byte-level
serialization of that stream by `hound` is external). -/
structure Wav where
  spec : WavSpec
  samples : List ℚ
deriving DecidableEq

/-- `slice::chunks_exact(n)` for `0 < n`: successive disjoint runs of exactly
`n` elements, discarding a short remainder. (Rust panics when `n = 0`; the
caller models that case before calling.) -/
def chunksExact {α : Type} (n : Nat) (l : List α) : List (List α) :=
  if _h : 0 < n ∧ n ≤ l.length then
    l.take n :: chunksExact n (l.drop n)
  else
    []
termination_by l.length
decreasing_by
  simp only [List.length_drop]
  omega

/-- `List.mapM` over `Option`, written out recursively so its equations are
convenient: `none` as soon as `f` fails, mirroring `?`-style short-circuiting
and index panics. -/
def mapOpt {α β : Type} (f : α → Option β) : List α → Option (List β)
  | [] => some []
  | a :: l =>
    match f a, mapOpt f l with
    | some b, some bs => some (b :: bs)
    | _, _ => none

/-- The sample-writing loop of `value_to_wav_bytes`:
`for i in 0..length { for channel in &channels { write(channel[i]) } }`.
`channel[i]` is a panicking index, modelled by `Option.none` on any
out-of-bounds access; the in-memory `write_sample` itself cannot fail. -/
def writeSamples (length : Nat) (channels : List (List ℚ)) :
    Option (List ℚ) :=
  (mapOpt (fun i => mapOpt (fun c => c.get? i) channels)
    (List.range length)).map List.flatten

/-- Assembling the WAV: the fixed spec (`channels.len() as u16`, 44100 Hz,
32-bit float) plus the interleaved sample stream; a panic in the write loop
propagates. -/
def mkWav (length : Nat) (channels : List (List ℚ)) :
    Option (Except String Wav) :=
  match writeSamples length channels with
  | none => none
  | some samples =>
    some (.ok { spec := { channels := channels.length % 65536,
                          sample_rate := 44100,
                          bits_per_sample := 32,
                          sample_format := .float },
                samples := samples })

/-- The error text of `value_to_wav_bytes`'s rank check, naming the offending
rank. -/
def audioRankMsg (n : Nat) : String :=
  "Audio must be a rank 1 or 2 numeric array, but it is rank " ++ toString n

/-- `value_to_wav_bytes` from `src/io.rs`: element conversion to `f32`
(identity on our rationals, with `Byte::or(0)` normalization), then the rank
match: rank 1 is one channel holding the whole buffer; rank 2 splits the
buffer with `values.chunks_exact(audio.row_len())` — which panics when the
row length is 0 (`chunks_exact` requires a non-zero chunk size), modelled by
`none`; other ranks are a descriptive error. -/
def value_to_wav_bytes (audio : Value) : Option (Except String Wav) :=
  match (match audio with
    | .num _ d => Except.ok d
    | .byte _ d => Except.ok (d.map fun b => (b.or0 : ℚ))
    | _ => Except.error "Audio must be a numeric array" :
      Except String (List ℚ)) with
  | .error e => some (.error e)
  | .ok values =>
    if audio.rank = 1 then
      mkWav values.length [values]
    else if audio.rank = 2 then
      if audio.rowLen = 0 then
        none
      else
        mkWav audio.rowLen (chunksExact audio.rowLen values)
    else
      some (.error (audioRankMsg audio.rank))

/-- The closed operation set generated by the `io_op!` macro invocation in
`src/io.rs`, in declaration order. -/
inductive IoOp where
  | Show
  | Prin
  | Print
  | Scan
  | Args
  | Var
  | Rand
  | FReadStr
  | FWriteStr
  | FReadBytes
  | FWriteBytes
  | FLines
  | FExists
  | FListDir
  | FIsFile
  | Import
  | Now
  | ImRead
  | ImWrite
  | ImShow
  | AudioPlay
deriving DecidableEq

/-- `IoOp::name` as generated by `io_op!`. -/
def IoOp.name : IoOp → String
  | .Show => "show"
  | .Prin => "prin"
  | .Print => "print"
  | .Scan => "scan"
  | .Args => "args"
  | .Var => "var"
  | .Rand => "rand"
  | .FReadStr => "freadstr"
  | .FWriteStr => "fwritestr"
  | .FReadBytes => "freadbytes"
  | .FWriteBytes => "fwritebytes"
  | .FLines => "flines"
  | .FExists => "fexists"
  | .FListDir => "flistdir"
  | .FIsFile => "fisfile"
  | .Import => "import"
  | .Now => "now"
  | .ImRead => "imread"
  | .ImWrite => "imwrite"
  | .ImShow => "imshow"
  | .AudioPlay => "audioplay"

/-- `IoOp::args` as generated by `io_op!`: the `$args` literal of each table
entry (note the table declares `1` for `FWriteStr`, `FWriteBytes` and
`ImWrite`). -/
def IoOp.args : IoOp → Nat
  | .Show => 1
  | .Prin => 1
  | .Print => 1
  | .Scan => 0
  | .Args => 0
  | .Var => 1
  | .Rand => 0
  | .FReadStr => 1
  | .FWriteStr => 1
  | .FReadBytes => 1
  | .FWriteBytes => 1
  | .FLines => 1
  | .FExists => 1
  | .FListDir => 1
  | .FIsFile => 1
  | .Import => 1
  | .Now => 0
  | .ImRead => 1
  | .ImWrite => 1
  | .ImShow => 1
  | .AudioPlay => 1

/-- `IoOp::outputs` as generated by `io_op!`: `Some(0)` for the entries
annotated `(0)` in the table (`show`, `prin`, `print`, `imshow`,
`audioplay`), `Some(1)` for everything else. -/
def IoOp.outputs : IoOp → Option Nat
  | .Show => some 0
  | .Prin => some 0
  | .Print => some 0
  | .ImShow => some 0
  | .AudioPlay => some 0
  | _ => some 1

/-- Decidable equality for `Except` results, so concrete codec outcomes can
be settled by `decide`. -/
instance {ε α : Type} [DecidableEq ε] [DecidableEq α] :
    DecidableEq (Except ε α) := fun a b =>
  match a, b with
  | .error e, .error f =>
    if h : e = f then .isTrue (by rw [h]) else .isFalse (by simp [h])
  | .ok x, .ok y =>
    if h : x = y then .isTrue (by rw [h]) else .isFalse (by simp [h])
  | .error _, .ok _ => .isFalse (by simp)
  | .ok _, .error _ => .isFalse (by simp)

/-- The host capability set of `src/io.rs` (`trait IoBackend`), with the
trait's default method bodies as Lean field defaults. `print_str` performs
bare output (recorded in the dispatcher's effect log), and `rand`'s value is
the number the host's generator yields; host responses are modelled as pure
fields consulted by the dispatcher. -/
structure IoBackend where
  rand : ℚ
  show_image : Image → Except String Unit :=
    fun _ => .error "Showing images not supported in this environment"
  play_audio : Wav → Except String Unit :=
    fun _ => .error "Playing audio not supported in this environment"
  scan_line : String := ""
  var : String → Option String := fun _ => none
  args : List String := []
  file_exists : String → Bool := fun _ => false
  list_dir : String → Except String (List String) :=
    fun _ => .error "File IO not supported in this environment"
  is_file : String → Except String Bool :=
    fun _ => .error "File IO not supported in this environment"
  read_file : String → Except String (List Nat) :=
    fun _ => .error "File IO not supported in this environment"
  write_file : String → List Nat → Except String Unit :=
    fun _ _ => .error "File IO not supported in this environment"

/-- `image::ImageOutputFormat` as used by the `imwrite` arm. -/
inductive ImageOutputFormat where
  | jpeg (quality : Nat)
  | png
  | bmp
  | gif
  | ico
deriving DecidableEq

/-- External collaborators used by the dispatcher that are not part of
`src/io.rs` (the `grid_fmt` renderer, `std` UTF-8 conversion, the `image`
crate's decoder and serializer, the evaluator's module-import entry point,
and the clock), modelled as opaque pure functions per the spec's "external
collaborators, interfaces only". -/
structure Externals where
  gridString : Value → String
  displayString : Value → String
  utf8 : List Nat → Option String
  utf8Bytes : String → List Nat
  decodeImage : List Nat → Except String Image
  writeTo : Image → ImageOutputFormat → Except String (List Nat)
  importRun : String → String → Except String Unit
  now : ℚ

/-- `path.split('.').last().unwrap_or("")` over the path's characters:
Rust's `split('.')` on a character list (splitting never yields an empty
iterator, so the `unwrap_or` default is inert). -/
def splitDot : List Char → List (List Char)
  | [] => [[]]
  | c :: rest =>
    if c = '.' then
      [] :: splitDot rest
    else
      match splitDot rest with
      | s :: ss => (c :: s) :: ss
      | [] => [[c]]

/-- The extension the `imwrite` arm computes: the last `'.'`-separated
segment of the path. -/
def lastExt (path : String) : String :=
  String.mk ((splitDot path.data).getLast?.getD [])

/-- The `match ext` of the `imwrite` arm: `jpg`/`jpeg` → JPEG at quality 100,
`png`/`bmp`/`gif`/`ico` to their formats, anything else → PNG. -/
def imwriteFormat (path : String) : ImageOutputFormat :=
  let e := lastExt path
  if e = "jpg" ∨ e = "jpeg" then .jpeg 100
  else if e = "png" then .png
  else if e = "bmp" then .bmp
  else if e = "gif" then .gif
  else if e = "ico" then .ico
  else .png

/-- Modelled from the spec: `Value::as_string` (external to `src/io.rs`) —
the argument "must be textual"; a character array yields its string, anything
else the caller-supplied error message. -/
def asString (v : Value) (msg : String) : Except String String :=
  match v with
  | .char _ d => .ok (String.mk d)
  | _ => .error msg

/-- Modelled from the spec: `Value::into_bytes` (external to `src/io.rs`) —
"Contents must be a byte array"; a byte array yields its normalized bytes,
anything else the caller-supplied error message. -/
def intoBytes (v : Value) (msg : String) : Except String (List Nat) :=
  match v with
  | .byte _ d => .ok (d.map MByte.or0)
  | _ => .error msg

/-- Modelled from the spec: the error message of a `pop` on an empty
evaluator stack (the evaluator's error construction is external; only the
fact that the dispatch fails matters). -/
def popEmptyMsg : String := "Stack was empty"

/-- Modelled from the spec: the `FromUtf8Error` text interpolated into
"Failed to read file: {e}"; the precise decoder message is external. -/
def utf8ErrText : String := "invalid UTF-8"

/-- Modelled from the spec: `str::lines` — "split into lines on line
boundaries"; the exact boundary handling is external `std` behavior and no
claim depends on it. -/
def linesOf (s : String) : List String := s.splitOn "\n"

/-- The stack-depth error of the `import` arm, naming the current stack
size. -/
def importStackMsg (n : Nat) : String :=
  "Stack must be empty before import, but there are " ++ toString n
    ++ " items on it"

/-- The observable host effects a dispatch performs, in order: console
output, file reads and writes, the module-import hand-off, image display and
audio playback. -/
inductive Effect where
  | printed (s : String)
  | fileRead (path : String)
  | fileWrote (path : String) (contents : List Nat)
  | imported (input : String) (path : String)
  | showedImage (img : Image)
  | playedAudio (w : Wav)
deriving DecidableEq

/-- The evaluator state visible to this module: the value stack (head is the
top) and the log of host effects performed so far. -/
structure Env where
  stack : List Value
  effects : List Effect
deriving DecidableEq

/-- How one dispatch ends: success, a propagated error value, or a Rust
panic. -/
inductive Outcome where
  | ok
  | err (msg : String)
  | panicked
deriving DecidableEq

/-- `IoOp::run` from `src/io.rs`, arm by arm: each operation pops its
operands from the evaluator stack (a pop on an empty stack fails), consults
the backend `bk` and the external collaborators `ex`, logs the host effects
it performs, and pushes its results. The returned `Env` is the evaluator
state when the arm returns (Rust mutates `env` in place, so pops done before
an error stick). -/
def run (op : IoOp) (bk : IoBackend) (ex : Externals) (env : Env) :
    Env × Outcome :=
  match op with
  | .Show =>
    match env.stack with
    | [] => (env, .err popEmptyMsg)
    | v :: rest =>
      ({ stack := rest,
         effects := env.effects ++ [.printed (ex.gridString v), .printed "\n"] },
       .ok)
  | .Prin =>
    match env.stack with
    | [] => (env, .err popEmptyMsg)
    | v :: rest =>
      ({ stack := rest,
         effects := env.effects ++ [.printed (ex.displayString v)] }, .ok)
  | .Print =>
    match env.stack with
    | [] => (env, .err popEmptyMsg)
    | v :: rest =>
      ({ stack := rest,
         effects := env.effects
           ++ [.printed (ex.displayString v), .printed "\n"] }, .ok)
  | .Scan =>
    ({ env with stack := strValue bk.scan_line :: env.stack }, .ok)
  | .Args =>
    ({ env with stack := strListValue bk.args :: env.stack }, .ok)
  | .Var =>
    match env.stack with
    | [] => (env, .err popEmptyMsg)
    | v :: rest =>
      match asString v "Augument to var must be a string" with
      | .error e => ({ env with stack := rest }, .err e)
      | .ok key =>
        ({ env with stack := strValue ((bk.var key).getD "") :: rest }, .ok)
  | .Rand =>
    ({ env with stack := Value.num [] [bk.rand] :: env.stack }, .ok)
  | .FReadStr =>
    match env.stack with
    | [] => (env, .err popEmptyMsg)
    | v :: rest =>
      match asString v "Path must be a string" with
      | .error e => ({ env with stack := rest }, .err e)
      | .ok path =>
        match bk.read_file path with
        | .error e =>
          ({ stack := rest, effects := env.effects ++ [.fileRead path] },
           .err e)
        | .ok bts =>
          match ex.utf8 bts with
          | none =>
            ({ stack := rest, effects := env.effects ++ [.fileRead path] },
             .err ("Failed to read file: " ++ utf8ErrText))
          | some s =>
            ({ stack := strValue s :: rest,
               effects := env.effects ++ [.fileRead path] }, .ok)
  | .FWriteStr =>
    match env.stack with
    | [] => (env, .err popEmptyMsg)
    | v :: rest =>
      match asString v "Path must be a string" with
      | .error e => ({ env with stack := rest }, .err e)
      | .ok path =>
        match rest with
        | [] => ({ env with stack := [] }, .err popEmptyMsg)
        | c :: rest2 =>
          match asString c "Contents must be a string" with
          | .error e => ({ env with stack := rest2 }, .err e)
          | .ok contents =>
            match bk.write_file path (ex.utf8Bytes contents) with
            | .error e => ({ env with stack := rest2 }, .err e)
            | .ok _ =>
              ({ stack := rest2,
                 effects := env.effects
                   ++ [.fileWrote path (ex.utf8Bytes contents)] }, .ok)
  | .FReadBytes =>
    match env.stack with
    | [] => (env, .err popEmptyMsg)
    | v :: rest =>
      match asString v "Path must be a string" with
      | .error e => ({ env with stack := rest }, .err e)
      | .ok path =>
        match bk.read_file path with
        | .error e =>
          ({ stack := rest, effects := env.effects ++ [.fileRead path] },
           .err e)
        | .ok bts =>
          ({ stack := Value.byte [bts.length] (bts.map MByte.val) :: rest,
             effects := env.effects ++ [.fileRead path] }, .ok)
  | .FWriteBytes =>
    match env.stack with
    | [] => (env, .err popEmptyMsg)
    | v :: rest =>
      match asString v "Path must be a string" with
      | .error e => ({ env with stack := rest }, .err e)
      | .ok path =>
        match rest with
        | [] => ({ env with stack := [] }, .err popEmptyMsg)
        | c :: rest2 =>
          match intoBytes c "Contents must be a byte array" with
          | .error e => ({ env with stack := rest2 }, .err e)
          | .ok contents =>
            match bk.write_file path contents with
            | .error e => ({ env with stack := rest2 }, .err e)
            | .ok _ =>
              ({ stack := rest2,
                 effects := env.effects ++ [.fileWrote path contents] }, .ok)
  | .FLines =>
    match env.stack with
    | [] => (env, .err popEmptyMsg)
    | v :: rest =>
      match asString v "Path must be a string" with
      | .error e => ({ env with stack := rest }, .err e)
      | .ok path =>
        match bk.read_file path with
        | .error e =>
          ({ stack := rest, effects := env.effects ++ [.fileRead path] },
           .err e)
        | .ok bts =>
          match ex.utf8 bts with
          | none =>
            ({ stack := rest, effects := env.effects ++ [.fileRead path] },
             .err ("Failed to read file: " ++ utf8ErrText))
          | some s =>
            ({ stack := strListValue (linesOf s) :: rest,
               effects := env.effects ++ [.fileRead path] }, .ok)
  | .FExists =>
    match env.stack with
    | [] => (env, .err popEmptyMsg)
    | v :: rest =>
      match asString v "Path must be a string" with
      | .error e => ({ env with stack := rest }, .err e)
      | .ok path =>
        ({ env with stack := boolValue (bk.file_exists path) :: rest }, .ok)
  | .FListDir =>
    match env.stack with
    | [] => (env, .err popEmptyMsg)
    | v :: rest =>
      match asString v "Path must be a string" with
      | .error e => ({ env with stack := rest }, .err e)
      | .ok path =>
        match bk.list_dir path with
        | .error e => ({ env with stack := rest }, .err e)
        | .ok paths =>
          ({ env with stack := strListValue paths :: rest }, .ok)
  | .FIsFile =>
    match env.stack with
    | [] => (env, .err popEmptyMsg)
    | v :: rest =>
      match asString v "Path must be a string" with
      | .error e => ({ env with stack := rest }, .err e)
      | .ok path =>
        match bk.is_file path with
        | .error e => ({ env with stack := rest }, .err e)
        | .ok b =>
          ({ env with stack := boolValue b :: rest }, .ok)
  | .Import =>
    match env.stack with
    | [] => (env, .err popEmptyMsg)
    | v :: rest =>
      match asString v "Import path must be a string" with
      | .error e => ({ env with stack := rest }, .err e)
      | .ok path =>
        if rest.length > 0 then
          ({ env with stack := rest }, .err (importStackMsg rest.length))
        else
          match bk.read_file path with
          | .error e =>
            ({ stack := rest, effects := env.effects ++ [.fileRead path] },
             .err e)
          | .ok bts =>
            match ex.utf8 bts with
            | none =>
              ({ stack := rest, effects := env.effects ++ [.fileRead path] },
               .err ("Failed to read file: " ++ utf8ErrText))
            | some input =>
              match ex.importRun input path with
              | .error e =>
                ({ stack := rest,
                   effects := env.effects
                     ++ [.fileRead path, .imported input path] }, .err e)
              | .ok _ =>
                ({ stack := rest,
                   effects := env.effects
                     ++ [.fileRead path, .imported input path] }, .ok)
  | .Now =>
    ({ env with stack := Value.num [] [ex.now] :: env.stack }, .ok)
  | .ImRead =>
    match env.stack with
    | [] => (env, .err popEmptyMsg)
    | v :: rest =>
      match asString v "Path must be a string" with
      | .error e => ({ env with stack := rest }, .err e)
      | .ok path =>
        match bk.read_file path with
        | .error e =>
          ({ stack := rest, effects := env.effects ++ [.fileRead path] },
           .err e)
        | .ok bts =>
          match ex.decodeImage bts with
          | .error e =>
            ({ stack := rest, effects := env.effects ++ [.fileRead path] },
             .err ("Failed to read image: " ++ e))
          | .ok img =>
            ({ stack := Value.byte [img.height, img.width, 4]
                 (img.data.map MByte.val) :: rest,
               effects := env.effects ++ [.fileRead path] }, .ok)
  | .ImWrite =>
    match env.stack with
    | [] => (env, .err popEmptyMsg)
    | v :: rest =>
      match asString v "Path must be a string" with
      | .error e => ({ env with stack := rest }, .err e)
      | .ok path =>
        match rest with
        | [] => ({ env with stack := [] }, .err popEmptyMsg)
        | value :: rest2 =>
          match value_to_image_bytes
              (fun img => ex.writeTo img (imwriteFormat path)) value with
          | none => ({ env with stack := rest2 }, .panicked)
          | some (.error e) => ({ env with stack := rest2 }, .err e)
          | some (.ok bts) =>
            match bk.write_file path bts with
            | .error e => ({ env with stack := rest2 }, .err e)
            | .ok _ =>
              ({ stack := rest2,
                 effects := env.effects ++ [.fileWrote path bts] }, .ok)
  | .ImShow =>
    match env.stack with
    | [] => (env, .err popEmptyMsg)
    | v :: rest =>
      match value_to_image v with
      | none => ({ env with stack := rest }, .panicked)
      | some (.error e) => ({ env with stack := rest }, .err e)
      | some (.ok img) =>
        match bk.show_image img with
        | .error e => ({ env with stack := rest }, .err e)
        | .ok _ =>
          ({ stack := rest, effects := env.effects ++ [.showedImage img] },
           .ok)
  | .AudioPlay =>
    match env.stack with
    | [] => (env, .err popEmptyMsg)
    | v :: rest =>
      match value_to_wav_bytes v with
      | none => ({ env with stack := rest }, .panicked)
      | some (.error e) => ({ env with stack := rest }, .err e)
      | some (.ok w) =>
        match bk.play_audio w with
        | .error e => ({ env with stack := rest }, .err e)
        | .ok _ =>
          ({ stack := rest, effects := env.effects ++ [.playedAudio w] },
           .ok)

/-- Modelled from the claim's words, for comparison with the source's
`imwriteFormat`: the format table applied to a given extension string —
`jpg`/`jpeg` → JPEG at quality 100, `png` → PNG, `bmp` → BMP, `gif` → GIF,
`ico` → ICO, anything else → PNG. -/
def claimFormatOfExt (e : String) : ImageOutputFormat :=
  if e = "jpg" ∨ e = "jpeg" then .jpeg 100
  else if e = "png" then .png
  else if e = "bmp" then .bmp
  else if e = "gif" then .gif
  else if e = "ico" then .ico
  else .png

/-- Modelled from the claim's words, for comparison with the source: the
pixel layout a given channel count should select — 1 gray, 2 gray+alpha,
3 RGB, 4 RGBA. -/
def colorOfChannels (c : Nat) : ColorKind :=
  if c = 1 then .gray
  else if c = 2 then .grayAlpha
  else if c = 3 then .rgb
  else .rgba

/-- Modelled from the claim's words, for comparison with the source's sample
stream: the interleaved stream drawn from a channel-major buffer `d` of `C`
channels of `S` samples — for `t` in `0..S`, for `ch` in `0..C`, the sample
at channel-major position `ch * S + t`. -/
def interleaveSpec (C S : Nat) (d : List ℚ) : List ℚ :=
  ((List.range S).map fun t =>
    (List.range C).map fun ch => (d.get? (ch * S + t)).getD 0).flatten

/-- A concrete backend for witnesses: the file `m` holds two bytes, writes
succeed, everything else keeps the trait defaults. -/
def bk0 : IoBackend :=
  { rand := 0,
    read_file := fun _ => .ok [104, 105],
    write_file := fun _ _ => .ok () }

/-- A concrete backend for witnesses whose reads fail. -/
def bkNoRead : IoBackend :=
  { rand := 0, read_file := fun _ => .error "no such file" }

/-- The backend built entirely from the trait's default methods (`rand` has
no default in the trait; the chosen value is never consulted by the
operations at issue). -/
def bkDefault : IoBackend := { rand := 0 }

/-- Concrete external collaborators for witnesses: UTF-8 decoding always
yields "hi", encoding is empty, image decoding fails, serialization yields an
empty byte string, module import succeeds. -/
def ex0 : Externals :=
  { gridString := fun _ => "",
    displayString := fun _ => "",
    utf8 := fun _ => some "hi",
    utf8Bytes := fun _ => [],
    decodeImage := fun _ => .error "bad image",
    writeTo := fun _ _ => .ok [],
    importRun := fun _ _ => .ok (),
    now := 0 }

/-- Concrete external collaborators whose UTF-8 decoding fails. -/
def exBadUtf8 : Externals :=
  { ex0 with utf8 := fun _ => none }

theorem mapOpt_eq_some {α β : Type} (f : α → Option β) (g : α → β)
    (l : List α) (h : ∀ a ∈ l, f a = some (g a)) :
    mapOpt f l = some (l.map g) := by
  induction l with
  | nil => rfl
  | cons a l ih =>
    have ha := h a (List.mem_cons_self a l)
    have hl := ih fun x hx => h x (List.mem_cons_of_mem a hx)
    simp [mapOpt, ha, hl]

theorem chunksExact_mul {S C : Nat} (hS : 0 < S) (d : List ℚ)
    (hd : d.length = C * S) :
    chunksExact S d = (List.range C).map fun i => (d.drop (i * S)).take S := by
  induction C generalizing d with
  | zero =>
    rw [chunksExact]
    have : ¬(0 < S ∧ S ≤ d.length) := by omega
    simp [this]
  | succ C ih =>
    rw [chunksExact]
    have hcond : 0 < S ∧ S ≤ d.length := by
      refine ⟨hS, ?_⟩
      rw [hd]
      calc S = 1 * S := (one_mul S).symm
        _ ≤ (C + 1) * S := Nat.mul_le_mul_right S (by omega)
    rw [dif_pos hcond]
    have hdrop : (d.drop S).length = C * S := by
      rw [List.length_drop, hd, Nat.succ_mul, Nat.add_sub_cancel]
    rw [ih (d.drop S) hdrop, List.range_succ_eq_map]
    simp only [List.map_cons, List.map_map, Nat.zero_mul, List.drop_zero]
    congr 1
    apply List.map_congr_left
    intro i _
    simp only [Function.comp_apply, List.drop_drop]
    congr 2
    rw [Nat.succ_eq_add_one]
    ring

theorem get?_take_drop (t S i : Nat) (d : List ℚ) (ht : t < S) :
    ((d.drop (i * S)).take S).get? t = d.get? (i * S + t) := by
  rw [List.get?_take ht, List.get?_drop]

theorem range_map_get? (l : List ℚ) :
    (List.range l.length).map (fun t => (l.get? t).getD 0) = l := by
  induction l with
  | nil => rfl
  | cons a l ih =>
    rw [List.length_cons, List.range_succ_eq_map, List.map_cons, List.map_map]
    have hc : ((fun t => (((a :: l).get? t).getD 0)) ∘ Nat.succ)
        = fun t => ((l.get? t).getD 0) := rfl
    rw [hc, ih]
    rfl

theorem flatten_map_singleton {α β : Type} (g : α → β) (l : List α) :
    (l.map fun a => [g a]).flatten = l.map g := by
  induction l with
  | nil => rfl
  | cons a l ih => simp [ih]

theorem mapOpt_get?_channels (chs : List (List ℚ)) (t : Nat)
    (h : ∀ c ∈ chs, t < c.length) :
    mapOpt (fun c => c.get? t) chs
      = some (chs.map fun c => (c.get? t).getD 0) := by
  apply mapOpt_eq_some
  intro c hc
  have hlt := h c hc
  cases hg : c.get? t with
  | none =>
    have := List.get?_eq_none.mp hg
    omega
  | some x => simp [hg]

theorem writeSamples_eq (S : Nat) (chs : List (List ℚ))
    (h : ∀ c ∈ chs, S ≤ c.length) :
    writeSamples S chs =
      some (((List.range S).map fun t =>
        chs.map fun c => (c.get? t).getD 0).flatten) := by
  unfold writeSamples
  rw [mapOpt_eq_some _ (fun t => chs.map fun c => (c.get? t).getD 0) _ ?_]
  · rfl
  intro t ht
  exact mapOpt_get?_channels chs t
    (fun c hc => lt_of_lt_of_le (List.mem_range.mp ht) (h c hc))

theorem writeSamples_single (d : List ℚ) :
    writeSamples d.length [d] = some d := by
  rw [writeSamples_eq d.length [d] (by intro c hc; simp at hc; simp [hc])]
  congr 1
  have : ∀ t, ([d].map fun c => (c.get? t).getD 0) = [(d.get? t).getD 0] :=
    fun t => rfl
  calc ((List.range d.length).map fun t =>
          [d].map fun c => (c.get? t).getD 0).flatten
      = ((List.range d.length).map fun t => [(d.get? t).getD 0]).flatten := by
        rw [List.map_congr_left fun t _ => this t]
    _ = (List.range d.length).map fun t => (d.get? t).getD 0 :=
        flatten_map_singleton _ _
    _ = d := range_map_get? d

theorem value_to_wav_rank1 (n : Nat) (d : List ℚ) :
    value_to_wav_bytes (.num [n] d) =
      some (.ok ⟨⟨1, 44100, 32, .float⟩, d⟩) := by
  have hr : (Value.num [n] d).rank = 1 := rfl
  simp only [value_to_wav_bytes, hr, mkWav, if_pos]
  rw [writeSamples_single]
  rfl

theorem value_to_wav_rank2 (C S : Nat) (d : List ℚ) (hd : d.length = C * S)
    (hS : 0 < S) :
    value_to_wav_bytes (.num [C, S] d) =
      some (.ok ⟨⟨C % 65536, 44100, 32, .float⟩, interleaveSpec C S d⟩) := by
  have hr : (Value.num [C, S] d).rank = 2 := rfl
  have hrl : (Value.num [C, S] d).rowLen = S := by
    simp [Value.rowLen, Value.shape]
  simp only [value_to_wav_bytes, hr, hrl, mkWav]
  split_ifs with h1 h2
  · omega
  all_goals try omega
  have hch := chunksExact_mul hS d hd
  have hlen : ∀ c ∈ chunksExact S d, S ≤ c.length := by
    rw [hch]
    intro c hc
    rcases List.mem_map.mp hc with ⟨i, hi, rfl⟩
    have hiC : i < C := List.mem_range.mp hi
    rw [List.length_take, List.length_drop, hd]
    have : (i + 1) * S ≤ C * S := Nat.mul_le_mul_right S (by omega)
    rw [Nat.add_mul, one_mul] at this
    omega
  rw [writeSamples_eq S _ hlen]
  have hchl : (chunksExact S d).length = C := by
    rw [hch, List.length_map, List.length_range]
  have hrows : ((List.range S).map fun t =>
      (chunksExact S d).map fun c => (c.get? t).getD 0)
      = (List.range S).map fun t =>
        (List.range C).map fun ch => (d.get? (ch * S + t)).getD 0 := by
    apply List.map_congr_left
    intro t ht
    have htS : t < S := List.mem_range.mp ht
    rw [hch, List.map_map]
    apply List.map_congr_left
    intro i _
    simp only [Function.comp_apply]
    rw [get?_take_drop t S i d htS]
  rw [hrows, hchl]
  rfl

theorem value_to_image_rank2 (h w : Nat) (d : List ℚ)
    (hd : d.length = h * w) :
    value_to_image (.num [h, w] d) =
      some (.ok ⟨w % u32Mod, h % u32Mod, .gray, d.map numToByte⟩) := by
  have hr : (Value.num [h, w] d).rank = 2 := rfl
  simp only [value_to_image, hr, imageOfChannels, Value.shape]
  norm_num [fromRaw, ColorKind.channels]
  rw [if_pos]
  calc w % u32Mod * (h % u32Mod) ≤ w * h := by
        gcongr <;> exact Nat.mod_le _ _
    _ = d.length := by rw [hd]; ring

theorem value_to_image_wrong_rank (v : Value)
    (h : ¬(v.rank = 2 ∨ v.rank = 3)) :
    value_to_image v = some (.error imgRankMsg) := by
  simp only [value_to_image, if_pos h]

theorem value_to_image_rank3 (h w c : Nat) (d : List ℚ)
    (hc : c = 1 ∨ c = 2 ∨ c = 3 ∨ c = 4) (hd : d.length = h * w * c) :
    value_to_image (.num [h, w, c] d) =
      some (.ok ⟨w % u32Mod, h % u32Mod, colorOfChannels c,
        d.map numToByte⟩) := by
  have hr : (Value.num [h, w, c] d).rank = 3 := rfl
  simp only [value_to_image, hr, Value.shape]
  rw [if_neg (by simp)]
  have hle : ∀ k, c = k →
      w % u32Mod * (h % u32Mod) * k ≤ d.length := by
    intro k hk
    rw [hd, ← hk]
    calc w % u32Mod * (h % u32Mod) * c ≤ w * h * c := by
          gcongr <;> exact Nat.mod_le _ _
      _ = h * w * c := by ring
  rcases hc with hc | hc | hc | hc <;> subst hc
  · norm_num [imageOfChannels, fromRaw, colorOfChannels, ColorKind.channels,
      show w % u32Mod * (h % u32Mod) ≤ d.length by simpa using hle 1 rfl]
  · norm_num [imageOfChannels, fromRaw, colorOfChannels, ColorKind.channels,
      hle 2 rfl]
  · norm_num [imageOfChannels, fromRaw, colorOfChannels, ColorKind.channels,
      hle 3 rfl]
  · norm_num [imageOfChannels, fromRaw, colorOfChannels, ColorKind.channels,
      hle 4 rfl]

theorem value_to_image_chan_err_num (h w c : Nat) (d : List ℚ)
    (h1 : c ≠ 1) (h2 : c ≠ 2) (h3 : c ≠ 3) (h4 : c ≠ 4) :
    value_to_image (.num [h, w, c] d) = some (.error (chanMsg c)) := by
  have hr : (Value.num [h, w, c] d).rank = 3 := rfl
  simp only [value_to_image, hr, Value.shape]
  rw [if_neg (by simp)]
  simp only [imageOfChannels, if_neg h1, if_neg h2, if_neg h3, if_neg h4]

theorem value_to_image_chan_err_byte (h w c : Nat) (d : List MByte)
    (h1 : c ≠ 1) (h2 : c ≠ 2) (h3 : c ≠ 3) (h4 : c ≠ 4) :
    value_to_image (.byte [h, w, c] d) = some (.error (chanMsg c)) := by
  have hr : (Value.byte [h, w, c] d).rank = 3 := rfl
  simp only [value_to_image, hr, Value.shape]
  rw [if_neg (by simp)]
  simp only [imageOfChannels, if_neg h1, if_neg h2, if_neg h3, if_neg h4]

theorem value_to_wav_wrong_rank_num (sh : List Nat) (d : List ℚ)
    (h1 : sh.length ≠ 1) (h2 : sh.length ≠ 2) :
    value_to_wav_bytes (.num sh d) =
      some (.error (audioRankMsg sh.length)) := by
  have hr : (Value.num sh d).rank = sh.length := rfl
  simp only [value_to_wav_bytes, hr, if_neg h1, if_neg h2]

theorem value_to_image_ne_none (v : Value) : value_to_image v ≠ none := by
  by_cases hr : v.rank = 2 ∨ v.rank = 3
  · rcases v with ⟨sh, d⟩ | ⟨sh, d⟩ | ⟨sh, d⟩
    rotate_right
    · simp only [value_to_image, if_neg (not_not_intro hr)]
      simp
    all_goals
      simp only [value_to_image, if_neg (not_not_intro hr)]
      rcases sh with _ | ⟨a, _ | ⟨b, _ | ⟨c, _ | ⟨e, t⟩⟩⟩⟩ <;>
        simp_all [Value.rank, Value.shape]
  · simp only [value_to_image, if_pos hr]
    simp

theorem splitDot_cons_dot (rest : List Char) :
    splitDot ('.' :: rest) = [] :: splitDot rest := by
  simp [splitDot]

theorem splitDot_cons_ne (c : Char) (rest : List Char) (hc : ¬(c = '.')) :
    splitDot (c :: rest) =
      (match splitDot rest with
        | s :: ss => (c :: s) :: ss
        | [] => [[c]]) := by
  rw [splitDot, if_neg hc]

theorem splitDot_ne_nil (l : List Char) : splitDot l ≠ [] := by
  induction l with
  | nil => simp [splitDot]
  | cons c rest ih =>
    by_cases hc : c = '.'
    · subst hc
      rw [splitDot_cons_dot]
      simp
    · rw [splitDot_cons_ne c rest hc]
      cases h : splitDot rest with
      | nil => exact absurd h ih
      | cons s ss => simp

theorem splitDot_no_dot (l : List Char) (h : '.' ∉ l) : splitDot l = [l] := by
  induction l with
  | nil => rfl
  | cons c rest ih =>
    have hc : ¬(c = '.') := fun e => h (e ▸ List.mem_cons_self c rest)
    have hrest : '.' ∉ rest := fun m => h (List.mem_cons_of_mem c m)
    rw [splitDot_cons_ne c rest hc, ih hrest]

theorem splitDot_dot_length (l₁ l₂ : List Char) :
    2 ≤ (splitDot (l₁ ++ '.' :: l₂)).length := by
  induction l₁ with
  | nil =>
    rw [List.nil_append, splitDot_cons_dot, List.length_cons]
    have h1 : 1 ≤ (splitDot l₂).length :=
      List.length_pos.mpr (splitDot_ne_nil l₂)
    omega
  | cons c rest ih =>
    by_cases hc : c = '.'
    · subst hc
      rw [List.cons_append, splitDot_cons_dot, List.length_cons]
      have h1 : 1 ≤ (splitDot (rest ++ '.' :: l₂)).length :=
        List.length_pos.mpr (splitDot_ne_nil _)
      omega
    · rw [List.cons_append, splitDot_cons_ne c _ hc]
      cases h : splitDot (rest ++ '.' :: l₂) with
      | nil => exact absurd h (splitDot_ne_nil _)
      | cons s ss =>
        rw [h] at ih
        simp only [List.length_cons] at ih ⊢
        omega

theorem splitDot_append_dot (l₁ l₂ : List Char) :
    (splitDot (l₁ ++ '.' :: l₂)).getLast? = (splitDot l₂).getLast? := by
  induction l₁ with
  | nil =>
    rw [List.nil_append, splitDot_cons_dot]
    cases h : splitDot l₂ with
    | nil => exact absurd h (splitDot_ne_nil l₂)
    | cons s ss => rw [List.getLast?_cons_cons]
  | cons c rest ih =>
    by_cases hc : c = '.'
    · subst hc
      rw [List.cons_append, splitDot_cons_dot]
      cases h : splitDot (rest ++ '.' :: l₂) with
      | nil => exact absurd h (splitDot_ne_nil _)
      | cons s ss =>
        rw [List.getLast?_cons_cons, ← h, ih]
    · rw [List.cons_append, splitDot_cons_ne c _ hc]
      cases h : splitDot (rest ++ '.' :: l₂) with
      | nil => exact absurd h (splitDot_ne_nil _)
      | cons s ss =>
        cases ss with
        | nil =>
          have h2 := splitDot_dot_length rest l₂
          rw [h] at h2
          simp at h2
        | cons s2 ss2 =>
          rw [List.getLast?_cons_cons, ← ih, h, List.getLast?_cons_cons]

theorem strMk_data (s : String) : String.mk s.data = s := rfl

theorem lastExt_no_dot (p : String) (h : '.' ∉ p.data) : lastExt p = p := by
  rw [lastExt, splitDot_no_dot p.data h]
  rfl

theorem string_append_dot_data (p e : String) :
    (p ++ "." ++ e).data = p.data ++ '.' :: e.data := by
  show (p.data ++ ['.']) ++ e.data = p.data ++ '.' :: e.data
  simp

theorem lastExt_append_dot (p e : String) (h : '.' ∉ e.data) :
    lastExt (p ++ "." ++ e) = e := by
  rw [lastExt, string_append_dot_data, splitDot_append_dot,
    splitDot_no_dot e.data h]
  rfl

/-- C1: the claim says every successful dispatch consumes exactly the
descriptor's `args` and pushes exactly its `outputs`, with `fwritestr`,
`fwritebytes` and `imwrite` at arity 2 / 0 outputs. The dispatch arms of
these three operations do pop 2 values and push none — as the claim and the
spec describe — but the `io_op!` descriptor table declares them at
`args = 1`, `outputs = Some(1)`, so the code's own descriptors contradict
its dispatch behaviour: each of the three runs below starts from a 2-value
stack, succeeds, and ends with an empty stack and nothing pushed. -/
theorem fwrite_descriptor_mismatch :
    IoOp.args .FWriteStr = 1 ∧ IoOp.outputs .FWriteStr = some 1 ∧
    IoOp.args .FWriteBytes = 1 ∧ IoOp.outputs .FWriteBytes = some 1 ∧
    IoOp.args .ImWrite = 1 ∧ IoOp.outputs .ImWrite = some 1 ∧
    run .FWriteStr bk0 ex0 ⟨[strValue "f", strValue "hi"], []⟩ =
      (⟨[], [.fileWrote "f" []]⟩, .ok) ∧
    run .FWriteBytes bk0 ex0 ⟨[strValue "f", Value.byte [1] [.val 7]], []⟩ =
      (⟨[], [.fileWrote "f" [7]]⟩, .ok) ∧
    run .ImWrite bk0 ex0 ⟨[strValue "f.png", Value.byte [1, 1] [.val 0]], []⟩ =
      (⟨[], [.fileWrote "f.png" []]⟩, .ok) := by
  decide

/-- C2: `encode_image` rejects every value of rank outside {2,3} with the
fixed rank error; succeeds on every rank-3 numeric value with buffer length
equal to the shape product and last dimension c ∈ {1,2,3,4}, producing
exactly the layout gray / gray+alpha / RGB / RGBA for c = 1,2,3,4; and
rejects a rank-3 numeric (float or byte) value whose last dimension is
outside {1,2,3,4} with an error naming that channel count. -/
theorem encode_image_shape_contract :
    (∀ v : Value, ¬(v.rank = 2 ∨ v.rank = 3) →
      value_to_image v = some (.error imgRankMsg)) ∧
    (∀ (h w c : Nat) (d : List ℚ), (c = 1 ∨ c = 2 ∨ c = 3 ∨ c = 4) →
      d.length = h * w * c →
      value_to_image (.num [h, w, c] d) =
        some (.ok ⟨w % u32Mod, h % u32Mod, colorOfChannels c,
          d.map numToByte⟩) ∧
      (colorOfChannels c).channels = c) ∧
    (∀ (h w c : Nat) (d : List ℚ), c ≠ 1 → c ≠ 2 → c ≠ 3 → c ≠ 4 →
      value_to_image (.num [h, w, c] d) = some (.error (chanMsg c)) ∧
      ∃ pre post : String, chanMsg c = pre ++ toString c ++ post) ∧
    (∀ (h w c : Nat) (d : List MByte), c ≠ 1 → c ≠ 2 → c ≠ 3 → c ≠ 4 →
      value_to_image (.byte [h, w, c] d) = some (.error (chanMsg c))) := by
  refine ⟨value_to_image_wrong_rank, ?_, ?_, ?_⟩
  · intro h w c d hc hd
    refine ⟨value_to_image_rank3 h w c d hc hd, ?_⟩
    rcases hc with hc | hc | hc | hc <;> subst hc <;> rfl
  · intro h w c d h1 h2 h3 h4
    refine ⟨value_to_image_chan_err_num h w c d h1 h2 h3 h4,
      "For a color image, the last dimension of the image array must be between 1 and 4 but it is ",
      "", ?_⟩
    rw [chanMsg, String.append_empty]
  · exact value_to_image_chan_err_byte

/-- Witness for C2 at concrete inputs: a rank-4 value is rejected with the
rank error; the 1-by-1 RGB value `[1,1,3]` with three samples encodes to an
RGB image; the `[1,1,5]` value of the claim's concrete scenario is rejected
with the channel error naming 5. -/
theorem encode_image_shape_contract_witness :
    (¬((Value.num [1, 1, 1, 1] [0]).rank = 2 ∨
        (Value.num [1, 1, 1, 1] [0]).rank = 3) ∧
      value_to_image (.num [1, 1, 1, 1] [0]) = some (.error imgRankMsg)) ∧
    (value_to_image (.num [1, 1, 3] [0, 0, 0]) =
        some (.ok ⟨1, 1, colorOfChannels 3, [0, 0, 0].map numToByte⟩) ∧
      (colorOfChannels 3).channels = 3) ∧
    (value_to_image (.num [1, 1, 5] [0, 0, 0, 0, 0]) =
        some (.error (chanMsg 5)) ∧
      ∃ pre post : String, chanMsg 5 = pre ++ toString 5 ++ post) :=
  ⟨⟨by decide, encode_image_shape_contract.1 _ (by decide)⟩,
   by
     have := encode_image_shape_contract.2.1 1 1 3 [0, 0, 0]
       (by norm_num) (by decide)
     simpa [u32Mod] using this,
   encode_image_shape_contract.2.2.1 1 1 5 [0, 0, 0, 0, 0]
     (by decide) (by decide) (by decide) (by decide)⟩

/-- C3 counterexample: the claim says the float→byte conversion is an
unclamped cast whose out-of-range floors wrap at the byte type. Rust's
float→int `as` cast saturates instead: the 1-by-1 grayscale value holding
2.0 has `floor(2 * 255) = 510`; wrapping would give `510 mod 256 = 254`,
but the encoded byte is the saturated 255. -/
theorem encode_image_no_wrap_counterexample :
    value_to_image (.num [1, 1] [2]) = some (.ok ⟨1, 1, .gray, [255]⟩) ∧
    ⌊(2 : ℚ) * 255⌋ % 256 = 254 ∧ (255 : ℤ) ≠ 254 := by
  refine ⟨?_, by norm_num, by norm_num⟩
  rw [value_to_image_rank2 1 1 [2] (by decide)]
  norm_num [numToByte, u32Mod]
  decide

/-- C3 (amended): the numeric element conversion is the saturating cast of
`floor(f * 255)` into `[0, 255]` (Rust `as u8` saturates; no wrap); on
inputs in `[0, 1]` this agrees with the claim's exact `floor(f * 255)`;
rank-2 numeric values encode to a grayscale image whose bytes are the
elementwise conversion; and the claim's concrete scenario holds: the
`[2, 3]` value `[[0, 0.5, 1], [0.25, 0.75, 1]]` encodes to a 3-wide,
2-high grayscale image with byte rows `[0, 127, 255]` and
`[63, 191, 255]`. -/
theorem encode_image_float_conversion :
    (∀ f : ℚ, numToByte f = (min 255 (max 0 ⌊f * 255⌋)).toNat) ∧
    (∀ f : ℚ, 0 ≤ f → f ≤ 1 → (numToByte f : ℤ) = ⌊f * 255⌋) ∧
    (∀ (h w : Nat) (d : List ℚ), d.length = h * w →
      value_to_image (.num [h, w] d) =
        some (.ok ⟨w % u32Mod, h % u32Mod, .gray, d.map numToByte⟩)) ∧
    value_to_image (.num [2, 3] [0, 1/2, 1, 1/4, 3/4, 1]) =
      some (.ok ⟨3, 2, .gray, [0, 127, 255, 63, 191, 255]⟩) := by
  refine ⟨fun f => rfl, ?_, value_to_image_rank2, ?_⟩
  · intro f h0 h1
    have hge : 0 ≤ ⌊f * 255⌋ := by
      apply Int.floor_nonneg.mpr
      positivity
    have hle : ⌊f * 255⌋ ≤ 255 := by
      have : f * 255 ≤ 255 := by nlinarith
      calc ⌊f * 255⌋ ≤ ⌊(255 : ℚ)⌋ := Int.floor_le_floor this
        _ = 255 := by norm_num
    rw [numToByte, max_eq_right hge, min_eq_right hle,
      Int.toNat_of_nonneg hge]
  · rw [value_to_image_rank2 2 3 _ (by decide)]
    norm_num [numToByte, u32Mod]
    decide

/-- Witness for C3 at a concrete input: 0.5 lies in `[0, 1]` and its byte is
exactly `floor(0.5 * 255) = 127`. -/
theorem encode_image_float_conversion_witness :
    (0 : ℚ) ≤ 1/2 ∧ (1/2 : ℚ) ≤ 1 ∧ (numToByte (1/2) : ℤ) = ⌊(1/2 : ℚ) * 255⌋
      ∧ numToByte (1/2) = 127 :=
  ⟨by norm_num, by norm_num,
   encode_image_float_conversion.2.1 (1/2) (by norm_num) (by norm_num),
   by norm_num [numToByte]; decide⟩

/-- C4 counterexample: the claim's rank-2 case, stated for every shape
`[C, S]`, fails at `S = 0`: the empty `[2, 0]` value makes
`chunks_exact(row_len)` receive chunk size 0, which panics (modelled by
`none`), so no WAV with 2 channels is produced. -/
theorem encode_wav_zero_samples_counterexample :
    value_to_wav_bytes (.num [2, 0] []) = none := by
  decide

/-- C4 (amended): every rank-1 numeric value of length N encodes to a mono
WAV of exactly its N samples at 44100 Hz, 32-bit float; every rank-2 numeric
value shaped `[C, S]` with buffer length `C * S`, at least one sample per
channel (`S ≥ 1` — the `S = 0` case panics) and `C` within the container's
16-bit channel field, encodes to a WAV with `C` channels whose sample stream
is interleaved in the order (t = 0, channels 0..C-1), (t = 1, channels
0..C-1), ..., drawn from the channel-major source buffer, `S * C` samples in
all. -/
theorem encode_wav_shape_contract :
    (∀ (n : Nat) (d : List ℚ), d.length = n →
      value_to_wav_bytes (.num [n] d) =
        some (.ok ⟨⟨1, 44100, 32, .float⟩, d⟩) ∧ d.length = n) ∧
    (∀ (C S : Nat) (d : List ℚ), d.length = C * S → 0 < S → C < 65536 →
      value_to_wav_bytes (.num [C, S] d) =
        some (.ok ⟨⟨C, 44100, 32, .float⟩, interleaveSpec C S d⟩) ∧
      (interleaveSpec C S d).length = S * C) := by
  constructor
  · intro n d hd
    exact ⟨value_to_wav_rank1 n d, hd⟩
  · intro C S d hd hS hC
    constructor
    · rw [value_to_wav_rank2 C S d hd hS, Nat.mod_eq_of_lt hC]
    · simp [interleaveSpec, Function.comp_def, mul_comm]

/-- Witness for C4 at concrete inputs: the rank-1 value `[5, 6]` gives a
mono WAV with those two samples, and the `[2, 2]` channel-major buffer
`[1, 2, 3, 4]` (channel 0 is `[1, 2]`, channel 1 is `[3, 4]`) gives a
2-channel WAV with interleaved stream `[1, 3, 2, 4]`. -/
theorem encode_wav_shape_contract_witness :
    (value_to_wav_bytes (.num [2] [5, 6]) =
        some (.ok ⟨⟨1, 44100, 32, .float⟩, [5, 6]⟩)) ∧
    (value_to_wav_bytes (.num [2, 2] [1, 2, 3, 4]) =
        some (.ok ⟨⟨2, 44100, 32, .float⟩, interleaveSpec 2 2 [1, 2, 3, 4]⟩)) ∧
    interleaveSpec 2 2 [1, 2, 3, 4] = [1, 3, 2, 4] :=
  ⟨(encode_wav_shape_contract.1 2 [5, 6] (by decide)).1,
   (encode_wav_shape_contract.2 2 2 [1, 2, 3, 4]
     (by decide) (by decide) (by decide)).1,
   by decide⟩

/-- C5: the claim says no codec function panics on any input value, in
particular `encode_wav` on every rank-2 value including `[C, 0]` shapes. The
image codec indeed never reaches its `unreachable!` branch (first conjunct),
but `value_to_wav_bytes` panics on the rank-2 value of shape `[1, 0]`: its
row length is 0 and `chunks_exact(0)` panics (second conjunct, the `none`
model of a panic). -/
theorem codec_panic_reachability :
    (∀ v : Value, value_to_image v ≠ none) ∧
    value_to_wav_bytes (.num [1, 0] []) = none := by
  exact ⟨value_to_image_ne_none, by decide⟩

/-- C6 counterexample: the claim says every optional capability's default
fails with a fixed unsupported error. Under the all-defaults backend, the
line-input, env-lookup, process-args and file-existence operations do not
fail at all: `var` succeeds and pushes the empty string (the default lookup
is absent, not an error), `scan` pushes the default empty line, `args`
pushes the default empty list, and `fexists` pushes the default `false`. -/
theorem default_capabilities_counterexample :
    run .Var bkDefault ex0 ⟨[strValue "TERM"], []⟩ =
      (⟨[strValue ""], []⟩, .ok) ∧
    run .Scan bkDefault ex0 ⟨[], []⟩ = (⟨[strValue ""], []⟩, .ok) ∧
    run .Args bkDefault ex0 ⟨[], []⟩ = (⟨[strListValue []], []⟩, .ok) ∧
    run .FExists bkDefault ex0 ⟨[strValue "f"], []⟩ =
      (⟨[boolValue false], []⟩, .ok) ∧
    bkDefault.scan_line = "" ∧ bkDefault.var "TERM" = none ∧
    bkDefault.args = [] ∧ bkDefault.file_exists "f" = false := by
  decide

/-- C6 (amended): of the ten optional capabilities, the six with a failure
channel — directory listing, file type-check, file read, file write, image
display and audio playback — default to a fixed unsupported-in-this-
environment error; the other four default to benign successes: line input
to the empty string, env lookup to absent, process args to the empty list,
and file existence to `false`. -/
theorem default_capabilities :
    (∀ p, bkDefault.list_dir p =
      .error "File IO not supported in this environment") ∧
    (∀ p, bkDefault.is_file p =
      .error "File IO not supported in this environment") ∧
    (∀ p, bkDefault.read_file p =
      .error "File IO not supported in this environment") ∧
    (∀ p bts, bkDefault.write_file p bts =
      .error "File IO not supported in this environment") ∧
    (∀ img, bkDefault.show_image img =
      .error "Showing images not supported in this environment") ∧
    (∀ w, bkDefault.play_audio w =
      .error "Playing audio not supported in this environment") ∧
    bkDefault.scan_line = "" ∧
    (∀ nm, bkDefault.var nm = none) ∧
    bkDefault.args = [] ∧
    (∀ p, bkDefault.file_exists p = false) :=
  ⟨fun _ => rfl, fun _ => rfl, fun _ => rfl, fun _ _ => rfl, fun _ => rfl,
   fun _ => rfl, rfl, fun _ => rfl, rfl, fun _ => rfl⟩

/-- C7 counterexample: the claim says every structural validation error of
the codec embeds the offending value. The image wrong-rank error does not:
on the rank-0 scalar value the message is the fixed rank text, which does
not contain the actual rank 0 anywhere (no decomposition around the digit
exists — the message has no '0' character at all). -/
theorem image_rank_error_counterexample :
    value_to_image (.num [] [5]) = some (.error imgRankMsg) ∧
    (Value.num [] [5]).rank = 0 ∧
    ¬ ∃ pre post : String, imgRankMsg = pre ++ toString (0 : Nat) ++ post := by
  refine ⟨value_to_image_wrong_rank _ (by decide), rfl, ?_⟩
  rintro ⟨pre, post, hEq⟩
  have hmem : '0' ∈ imgRankMsg.data := by
    rw [hEq]
    show '0' ∈ (pre ++ "0" ++ post).data
    have hdata : (pre ++ "0" ++ post).data = pre.data ++ '0' :: post.data := by
      show (pre.data ++ ['0']) ++ post.data = pre.data ++ '0' :: post.data
      simp
    rw [hdata]
    simp
  exact absurd hmem (by decide)

/-- C7 (amended): the audio wrong-rank error and the image wrong-channel-
count error do embed the offending value (the message decomposes around the
printed rank or channel count); the image wrong-rank error is the one
structural error that does not — it is a fixed message naming only the
allowed ranks. -/
theorem structural_errors_name_offender :
    (∀ (sh : List Nat) (d : List ℚ), sh.length ≠ 1 → sh.length ≠ 2 →
      value_to_wav_bytes (.num sh d) =
        some (.error (audioRankMsg sh.length)) ∧
      ∃ pre post : String,
        audioRankMsg sh.length = pre ++ toString sh.length ++ post) ∧
    (∀ (h w c : Nat) (d : List ℚ), c ≠ 1 → c ≠ 2 → c ≠ 3 → c ≠ 4 →
      value_to_image (.num [h, w, c] d) = some (.error (chanMsg c)) ∧
      ∃ pre post : String, chanMsg c = pre ++ toString c ++ post) ∧
    (∀ v : Value, ¬(v.rank = 2 ∨ v.rank = 3) →
      value_to_image v = some (.error imgRankMsg)) := by
  refine ⟨?_, ?_, value_to_image_wrong_rank⟩
  · intro sh d h1 h2
    refine ⟨value_to_wav_wrong_rank_num sh d h1 h2,
      "Audio must be a rank 1 or 2 numeric array, but it is rank ", "", ?_⟩
    rw [audioRankMsg, String.append_empty]
  · intro h w c d h1 h2 h3 h4
    refine ⟨value_to_image_chan_err_num h w c d h1 h2 h3 h4,
      "For a color image, the last dimension of the image array must be between 1 and 4 but it is ",
      "", ?_⟩
    rw [chanMsg, String.append_empty]

/-- Witness for C7 at concrete inputs: the rank-0 audio scalar is rejected
with a message embedding rank 0, and the `[1, 1, 5]` image is rejected with
a message embedding channel count 5. -/
theorem structural_errors_name_offender_witness :
    (value_to_wav_bytes (.num [] [1]) = some (.error (audioRankMsg 0)) ∧
      ∃ pre post : String, audioRankMsg 0 = pre ++ toString 0 ++ post) ∧
    (value_to_image (.num [1, 1, 5] [0, 0, 0, 0, 0]) =
        some (.error (chanMsg 5)) ∧
      ∃ pre post : String, chanMsg 5 = pre ++ toString 5 ++ post) :=
  ⟨structural_errors_name_offender.1 [] [1] (by decide) (by decide),
   structural_errors_name_offender.2.1 1 1 5 [0, 0, 0, 0, 0]
     (by decide) (by decide) (by decide) (by decide)⟩

/-- C8: with values beneath the popped path, `import` fails with the
stack-depth error naming the current depth and performs no host effect; with
the precondition satisfied, the file at the path is read and its UTF-8 text
is handed to the evaluator's module-import entry point, and a UTF-8 decode
failure is an error (file read but nothing imported). -/
theorem import_contract (bk : IoBackend) (ex : Externals) (p : String)
    (rest : List Value) :
    (rest ≠ [] →
      run .Import bk ex ⟨strValue p :: rest, []⟩ =
        (⟨rest, []⟩, .err (importStackMsg rest.length)) ∧
      ∃ pre post : String,
        importStackMsg rest.length = pre ++ toString rest.length ++ post) ∧
    (∀ bts s, bk.read_file p = .ok bts → ex.utf8 bts = some s →
      (run .Import bk ex ⟨[strValue p], []⟩).1 =
        ⟨[], [.fileRead p, .imported s p]⟩) ∧
    (∀ bts, bk.read_file p = .ok bts → ex.utf8 bts = none →
      run .Import bk ex ⟨[strValue p], []⟩ =
        (⟨[], [.fileRead p]⟩, .err ("Failed to read file: " ++ utf8ErrText))) := by
  refine ⟨?_, ?_, ?_⟩
  · intro hrest
    have hlen : rest.length > 0 := List.length_pos.mpr hrest
    constructor
    · simp only [run, strValue, asString]
      rw [if_pos hlen]
    · exact ⟨"Stack must be empty before import, but there are ",
        " items on it", rfl⟩
  · intro bts s hread hutf8
    simp only [run, strValue, asString]
    rw [if_neg (by simp), strMk_data p, hread]
    simp only [hutf8]
    cases himp : ex.importRun s p <;> simp [himp]
  · intro bts hread hutf8
    simp only [run, strValue, asString]
    rw [if_neg (by simp), strMk_data p, hread]
    simp only [hutf8, List.nil_append]

/-- Witness for C8 at concrete inputs: with one extra value under the path
the dispatch fails naming depth 1 without touching the host; with an empty
remainder the read-and-import path fires under `bk0`/`ex0`, and under the
failing decoder `exBadUtf8` the UTF-8 error is produced after the read. -/
theorem import_contract_witness :
    ([boolValue true] ≠ ([] : List Value) ∧
      run .Import bk0 ex0 ⟨[strValue "m", boolValue true], []⟩ =
        (⟨[boolValue true], []⟩, .err (importStackMsg 1)) ∧
      ∃ pre post : String,
        importStackMsg 1 = pre ++ toString 1 ++ post) ∧
    (bk0.read_file "m" = .ok [104, 105] ∧
      ex0.utf8 [104, 105] = some "hi" ∧
      (run .Import bk0 ex0 ⟨[strValue "m"], []⟩).1 =
        ⟨[], [.fileRead "m", .imported "hi" "m"]⟩) ∧
    (exBadUtf8.utf8 [104, 105] = none ∧
      run .Import bk0 exBadUtf8 ⟨[strValue "m"], []⟩ =
        (⟨[], [.fileRead "m"]⟩, .err ("Failed to read file: " ++ utf8ErrText))) := by
  refine ⟨⟨by decide, ?_⟩, ⟨rfl, rfl, ?_⟩, ⟨rfl, ?_⟩⟩
  · have h := (import_contract bk0 ex0 "m" [boolValue true]).1 (by decide)
    exact ⟨h.1, h.2⟩
  · exact (import_contract bk0 ex0 "m" []).2.1 [104, 105] "hi" rfl rfl
  · exact (import_contract bk0 exBadUtf8 "m" []).2.2 [104, 105] rfl rfl

/-- C10: the empty-stack precondition of `import` is checked after the path
is popped — with exactly the path on the stack the check passes and the
dispatch proceeds to the file read (its first host effect is the read of the
popped path, whatever the host then answers); with any value left beneath
the path, the dispatch stops with the stack-depth error before any host
effect, leaving exactly the values beneath the path on the stack. -/
theorem import_check_after_pop (bk : IoBackend) (ex : Externals)
    (p : String) :
    ((run .Import bk ex ⟨[strValue p], []⟩).1.stack = [] ∧
      (run .Import bk ex ⟨[strValue p], []⟩).1.effects.head? =
        some (.fileRead p)) ∧
    (∀ rest : List Value, rest ≠ [] →
      run .Import bk ex ⟨strValue p :: rest, []⟩ =
        (⟨rest, []⟩, .err (importStackMsg rest.length))) := by
  constructor
  · simp only [run, strValue, asString]
    rw [if_neg (by simp), strMk_data p]
    cases hread : bk.read_file p with
    | error e => simp [hread]
    | ok bts =>
      cases hutf8 : ex.utf8 bts with
      | none => simp [hread, hutf8]
      | some s =>
        cases himp : ex.importRun s p <;> simp [hread, hutf8, himp]
  · intro rest hrest
    have hlen : rest.length > 0 := List.length_pos.mpr hrest
    simp only [run, strValue, asString]
    rw [if_pos hlen]

/-- Witness for C10 at concrete inputs: under `bk0` with the single path
value the check passes and the file read happens; with a value beneath the
path the stack-depth error fires with depth 1 and no effect. -/
theorem import_check_after_pop_witness :
    ((run .Import bk0 ex0 ⟨[strValue "m"], []⟩).1.stack = [] ∧
      (run .Import bk0 ex0 ⟨[strValue "m"], []⟩).1.effects.head? =
        some (.fileRead "m")) ∧
    ([boolValue false] ≠ ([] : List Value) ∧
      run .Import bk0 ex0 ⟨[strValue "m", boolValue false], []⟩ =
        (⟨[boolValue false], []⟩, .err (importStackMsg 1))) :=
  ⟨(import_check_after_pop bk0 ex0 "m").1,
   ⟨by decide,
    (import_check_after_pop bk0 ex0 "m").2 [boolValue false] (by decide)⟩⟩

/-- C9 counterexample: the claim maps "no extension" to the PNG fallback,
but the code takes the last `'.'`-separated segment, which for a dotless
path is the whole path: the extensionless path "gif" (it contains no `'.'`)
selects GIF, not PNG. -/
theorem imwrite_dotless_counterexample :
    imwriteFormat "gif" = ImageOutputFormat.gif ∧
    ('.' ∈ "gif".data) = False ∧
    ImageOutputFormat.gif ≠ ImageOutputFormat.png := by
  refine ⟨by decide, by simp, by decide⟩

/-- C9 (amended): `imwrite` selects the format from the last
`'.'`-separated segment of the path via the claimed table (jpg/jpeg → JPEG
at quality 100, png → PNG, bmp → BMP, gif → GIF, ico → ICO, anything
else → PNG); for a path with an extension (text after a final `'.'`) the
table is applied to that extension, and for a dotless path the whole path
is used as the segment (so a path exactly named after a format selects that
format rather than the PNG fallback). -/
theorem imwrite_format_selection :
    (∀ p : String, '.' ∉ p.data → imwriteFormat p = claimFormatOfExt p) ∧
    (∀ p e : String, '.' ∉ e.data →
      imwriteFormat (p ++ "." ++ e) = claimFormatOfExt e) := by
  constructor
  · intro p h
    rw [imwriteFormat, lastExt_no_dot p h, claimFormatOfExt]
  · intro p e h
    rw [imwriteFormat, lastExt_append_dot p e h, claimFormatOfExt]

/-- Witness for C9 at concrete inputs: "a.jpeg" has extension "jpeg" (which
has no dot) and selects JPEG at quality 100; the dotless "myimage" falls
through the table to PNG. -/
theorem imwrite_format_selection_witness :
    ('.' ∉ "jpeg".data ∧ "a" ++ "." ++ "jpeg" = "a.jpeg" ∧
      imwriteFormat "a.jpeg" = ImageOutputFormat.jpeg 100) ∧
    ('.' ∉ "myimage".data ∧
      imwriteFormat "myimage" = ImageOutputFormat.png) := by
  refine ⟨⟨by decide, rfl, ?_⟩, by decide, ?_⟩
  · have h := imwrite_format_selection.2 "a" "jpeg" (by decide)
    simpa using h
  · have h := imwrite_format_selection.1 "myimage" (by decide)
    simpa [claimFormatOfExt] using h
